import Mathlib

/-!
Verification of the real-time interview orchestration engine of
`interview-saas-backend` against its natural-language specification.

Two layers of the source are embedded:

* Model A — `src/agents/InterviewOrchestrator.js` together with
  `src/agents/StressMonitorAgent.js` and
  `src/agents/AuthenticitySignalAgent.js`: the phase state machine,
  the micro-analysis quick checks and the per-turn `processResponse`
  pipeline, as pure state-passing functions.
* Model B — the `WebSocketService` (session registry, observer
  visibility protocol, termination): handlers become functions from a
  session map to a session map plus a list of emitted effects.

External collaborators (LLM question generation, speech services,
database rows) are parameters of the functions that await them; a
`try/catch` around a collaborator is embedded as a Boolean `fail`
oracle selecting between the try-result and the catch-result, exactly
as the source's catch blocks construct their fallback objects.
-/

namespace InterviewSaas

/-- Apostrophe character as a string, used to build the textual stress
indicators from `StressMonitorAgent.quickStressCheck`. -/
def apos : String := String.singleton (Char.ofNat 39)

/-- JavaScript `haystack.includes(needle)` for a non-empty `needle`:
the needle occurs in the haystack iff splitting on it yields more than
one piece. -/
def includesStr (s sub : String) : Bool := 1 < (s.splitOn sub).length

/-- One transcript entry.  The source builds these objects with exactly
the fields `speaker`, `text`, `timestamp` (see
`InterviewOrchestrator.addToTranscript` and the `transcript.push`
calls in `WebSocketService`).  `sequenceNumber` models reading that
property on the JS object: the code never assigns it, so reading it
yields `undefined`, embedded as `none`. -/
structure Message where
  speaker : String
  text : String
  timestamp : Nat
  sequenceNumber : Option Nat := none
deriving Repr, DecidableEq

/-- The `live_state` JSONB blob kept by the orchestrator
(`loadContext` defaults it to stress low / phase 0). -/
structure LiveState where
  stress_level : String
  last_signal_check : String
  phase_index : Nat
deriving Repr, DecidableEq

/-- In-memory state of one `InterviewOrchestrator`:
`this.currentPhaseIndex`, `this.context.transcript` and
`this.context.live_state`. -/
structure OrchState where
  currentPhaseIndex : Nat
  transcript : List Message
  live : LiveState
deriving Repr, DecidableEq

/-- `this.phases` from the `InterviewOrchestrator` constructor. -/
def phases : List String :=
  ["warmup", "claim_verification", "scenario", "depth", "reflection"]

/-- Result object of `StressMonitorAgent.quickStressCheck`. -/
structure StressResult where
  stress_level : String
  indicators : List String
  recommendation : String
deriving Repr, DecidableEq

/-- The `indicators` array built by `quickStressCheck`: word count of
the response (JS `response.split(' ').length`) and lower-cased
substring tests. -/
def quickIndicators (response : String) : List String :=
  let responseLength := (response.splitOn " ").length
  let lower := response.toLower
  (if responseLength < 10 then ["Very brief response"] else []) ++
  (if 200 < responseLength then ["Unusually long response"] else []) ++
  (if includesStr lower ("i don" ++ apos ++ "t know") || includesStr lower "not sure" then
    ["Expressions of uncertainty"] else []) ++
  (if includesStr lower "sorry" && !(includesStr lower "sorry, could you") then
    ["Apologetic language"] else [])

/-- `StressMonitorAgent.quickStressCheck(response)`.  `fail = true`
takes the catch branch (its fallback object has `stress_level:
'unknown'`); `fail = false` is the try body, which is total for any
string input. -/
def quickStressCheck (response : String) (fail : Bool) : StressResult :=
  if fail then
    { stress_level := "unknown", indicators := [], recommendation := "continue" }
  else
    let indicators := quickIndicators response
    let stress_level := if 2 ≤ indicators.length then "medium" else "low"
    { stress_level := stress_level
      indicators := indicators
      recommendation := if stress_level == "medium" then "reassure" else "continue" }

/-- Result object of `AuthenticitySignalAgent.quickSignalCheck`. -/
structure SignalResult where
  quality : String
  note : String
deriving Repr, DecidableEq

/-- `AuthenticitySignalAgent.quickSignalCheck(question, response)`:
the try body returns whatever the LLM produced (`normal`, an external
input); the catch branch returns the fallback object. -/
def quickSignalCheck (normal : SignalResult) (fail : Bool) : SignalResult :=
  if fail then { quality := "unknown", note := "Check failed" } else normal

/-- `InterviewOrchestrator.loadContext`: re-reads the persisted
context; on the in-memory state its effect is
`this.currentPhaseIndex = this.context.live_state.phase_index`. -/
def loadContext (s : OrchState) : OrchState :=
  { s with currentPhaseIndex := s.live.phase_index }

/-- `InterviewOrchestrator.addToTranscript(speaker, text)`: builds the
message object (fields `speaker`, `text`, `timestamp` only) and
appends it to `this.context.transcript`. -/
def addToTranscript (s : OrchState) (speaker text : String) (ts : Nat) : OrchState :=
  { s with transcript :=
      s.transcript ++ [{ speaker := speaker, text := text, timestamp := ts }] }

/-- `InterviewOrchestrator.shouldAdvancePhase`.  Note the filter
predicate from the source: its second conjunct
`this.context.live_state.phase_index === this.currentPhaseIndex`
does not mention the message `m` at all. -/
def shouldAdvancePhase (s : OrchState) : Bool :=
  let currentPhase := phases.getD s.currentPhaseIndex ""
  let phaseMessages := s.transcript.filter (fun m =>
    m.speaker == "candidate" && s.live.phase_index == s.currentPhaseIndex)
  let minQuestionsPerPhase := if currentPhase == "reflection" then 2 else 3
  minQuestionsPerPhase ≤ phaseMessages.length

/-- `InterviewOrchestrator.shouldEndInterview`.  The reflection branch
filter likewise compares `this.phases[this.context.live_state.phase_index]`
against `'reflection'` without mentioning `m`; an out-of-range index in
JS yields `undefined`, which compares unequal to `'reflection'`,
embedded via `List.getD _ _ ""`. -/
def shouldEndInterview (s : OrchState) : Bool :=
  if phases.length - 1 ≤ s.currentPhaseIndex then
    let reflectionMessages := s.transcript.filter (fun m =>
      m.speaker == "candidate" && phases.getD s.live.phase_index "" == "reflection")
    2 ≤ reflectionMessages.length
  else
    let candidateMessages := s.transcript.filter (fun m => m.speaker == "candidate")
    20 ≤ candidateMessages.length

/-- `if (stressCheck.stress_level === 'high' && Math.random() > 0.5)`:
the reassurance-substitution guard in `processResponse`, with the coin
flip as an explicit input. -/
def chooseReassurance (stress_level : String) (coin : Bool) : Bool :=
  stress_level == "high" && coin

/-- External inputs consumed by one `processResponse` call: the
candidate's answer, the failure oracles of the two quick checks, the
LLM outputs, the coin flip, and the timestamp. -/
structure PArgs where
  candidateResponse : String
  stressFail : Bool
  signalNormal : SignalResult
  signalFail : Bool
  coin : Bool
  nextQ : String
  reassure : String
  closing : String
  ts : Nat
deriving Repr, DecidableEq

/-- Return value of `processResponse`: either the `endInterview`
result (`completed: true` with the closing message) or the next
utterance with phase and stress level. -/
inductive PResult
| terminated (message : String)
| next (message : String) (phase : String) (stress : String)
deriving Repr, DecidableEq

/-- `InterviewOrchestrator.endInterview`: `loadContext`, closing
message appended to the transcript; the macro analyses, report
synthesis and the `status = 'completed'` database write are external
collaborator calls with no effect on the in-memory orchestrator
state. -/
def orchEndInterview (s : OrchState) (closing : String) (ts : Nat) : OrchState × PResult :=
  let s := loadContext s
  let s := addToTranscript s "ai" closing ts
  (s, .terminated closing)

/-- `InterviewOrchestrator.processResponse(candidateResponse)`,
following the source line by line: load context, append the candidate
turn, run the two quick checks, record their results in `live_state`,
maybe advance the phase (clamped with `Math.min`), maybe end, else
choose reassurance or the next question and append it as an AI
turn. -/
def processResponse (s : OrchState) (a : PArgs) : OrchState × PResult :=
  let s := loadContext s
  let s := addToTranscript s "candidate" a.candidateResponse a.ts
  let stressCheck := quickStressCheck a.candidateResponse a.stressFail
  let signalCheck := quickSignalCheck a.signalNormal a.signalFail
  let s := { s with live := { s.live with
      stress_level := stressCheck.stress_level
      last_signal_check := signalCheck.quality } }
  let s :=
    if shouldAdvancePhase s then
      let idx := min (s.currentPhaseIndex + 1) (phases.length - 1)
      { s with currentPhaseIndex := idx, live := { s.live with phase_index := idx } }
    else s
  if shouldEndInterview s then
    orchEndInterview s a.closing a.ts
  else
    let nextQuestion :=
      if chooseReassurance stressCheck.stress_level a.coin then a.reassure else a.nextQ
    let s := addToTranscript s "ai" nextQuestion a.ts
    (s, .next nextQuestion (phases.getD s.currentPhaseIndex "") stressCheck.stress_level)

/-- One `processResponse` step, keeping only the orchestrator state. -/
def stepPhase (s : OrchState) (a : PArgs) : OrchState :=
  (processResponse s a).1

/-- A sequence of processed candidate responses. -/
def runEvents (s : OrchState) (l : List PArgs) : OrchState :=
  l.foldl stepPhase s

/-- State of a freshly constructed orchestrator: phase 0, empty
transcript, the `live_state` defaults from `loadContext`. -/
def orchInit : OrchState :=
  { currentPhaseIndex := 0
    transcript := []
    live := { stress_level := "low", last_signal_check := "", phase_index := 0 } }

/-- One HR observer record as pushed by
`WebSocketService.handleHRJoin` (`visible: false, audio: false,
video: false` on join). -/
structure Observer where
  socketId : String
  userId : String
  name : String
  email : String
  visible : Bool
  audio : Bool
  video : Bool
  joinedAt : Nat
deriving Repr, DecidableEq

/-- One entry of `this.sessions` in `WebSocketService`: the session
object created by `handleCandidateJoin`.  The `orchestrator` field
holds the per-interview orchestrator instance that lives and dies
with the session object. -/
structure WSSession where
  interviewId : String
  candidateId : String
  candidateSocketId : Option String
  status : String
  orchestrator : OrchState
  transcript : List Message
  currentQuestion : Option String
  questionCount : Nat
  hrObservers : List Observer
  hrPresent : Bool
  isPaused : Bool
  startedAt : Nat
deriving Repr, DecidableEq

/-- Observable side effects of a handler: a socket emission
(`io.to(sock).emit(event, …)`, payloads elided), the finalization
(`orchestrator.generateReport()` plus the completed-interview
persistence), or another database write. -/
inductive Effect
| emit (sock : String) (event : String)
| finalize
| dbWrite (target : String)
deriving Repr, DecidableEq

/-- The session registry `this.sessions : Map(interviewId → session)`,
embedded as an association list. -/
abbrev Sessions := List (String × WSSession)

/-- `Map.get(k)`. -/
def mget : Sessions → String → Option WSSession
  | [], _ => none
  | (k, v) :: rest, key => if k == key then some v else mget rest key

/-- `Map.set(k, v)`: replaces the binding when the key is present,
appends it otherwise. -/
def mset : Sessions → String → WSSession → Sessions
  | [], key, v => [(key, v)]
  | (k, w) :: rest, key, v =>
      if k == key then (k, v) :: rest else (k, w) :: mset rest key v

/-- `WebSocketService.notifyHRObservers(interviewId, eventName, data)`
applied to a session already in hand: one emission per observer. -/
def notifyHRObservers (s : WSSession) (event : String) : List Effect :=
  s.hrObservers.map (fun o => .emit o.socketId event)

/-- Emission to the candidate socket: `io.to(session.candidateSocketId)`
reaches no socket when the reference is `null`. -/
def emitToCandidate (s : WSSession) (event : String) : List Effect :=
  match s.candidateSocketId with
  | some c => [.emit c event]
  | none => []

/-- `WebSocketService.endInterview(session)`: generate the final
report, persist the completed interview and the transcript, notify
the candidate and all observers, set `session.status = 'completed'`.
The source checks no precondition on `session.status`. -/
def endInterview (s : WSSession) : WSSession × List Effect :=
  let effs := [Effect.finalize,
    Effect.dbWrite "interviews.status-completed",
    Effect.dbWrite "interviews.transcript"] ++
    emitToCandidate s "interview-completed" ++
    notifyHRObservers s "interview-completed"
  ({ s with status := "completed" }, effs)

/-- `WebSocketService.handleHREndInterview(socket, data)`: looks the
session up, ends it unconditionally, then notifies the candidate. -/
def handleHREndInterview (st : Sessions) (interviewId : String) : Sessions × List Effect :=
  match mget st interviewId with
  | none => (st, [])
  | some s =>
    let r := endInterview s
    let effs := r.2 ++ emitToCandidate r.1 "interview-ended-by-hr"
    (mset st interviewId r.1, effs)

/-- The in-place mutation `hrObserver.visible = true` performed by
`handleHRReveal` on the observer found by socket id. -/
def revealUpd (socketId : String) (o : Observer) : Observer :=
  if o.socketId == socketId then { o with visible := true } else o

/-- `WebSocketService.handleHRReveal(socket, data)`: find the observer
by socket id, set `visible = true`, persist `was_visible`, emit
`participant-joined` to the candidate (whenever connected — the source
never consults the previous value of `visible`), set
`session.hrPresent = true`, confirm to the revealing socket. -/
def handleHRReveal (st : Sessions) (interviewId socketId : String) : Sessions × List Effect :=
  match mget st interviewId with
  | none => (st, [.emit socketId "error"])
  | some s =>
    match s.hrObservers.find? (fun o => o.socketId == socketId) with
    | none => (st, [.emit socketId "error"])
    | some _ =>
      let s2 := { s with
        hrObservers := s.hrObservers.map (revealUpd socketId)
        hrPresent := true }
      let effs := [Effect.dbWrite "interview_observers.was_visible"] ++
        emitToCandidate s "participant-joined" ++
        [.emit socketId "reveal-success"]
      (mset st interviewId s2, effs)

/-- `WebSocketService.handleHRAudio(socket, data)`: forwarded to the
candidate and to every other observer only when the sending observer
is found, `visible` and `audio` are set, and a candidate socket is
bound; otherwise nothing is emitted and no state changes. -/
def handleHRAudio (st : Sessions) (interviewId socketId : String) : Sessions × List Effect :=
  match mget st interviewId with
  | none => (st, [])
  | some s =>
    match s.hrObservers.find? (fun o => o.socketId == socketId) with
    | none => (st, [])
    | some o =>
      match s.candidateSocketId with
      | none => (st, [])
      | some c =>
        if o.visible && o.audio then
          (st, [Effect.emit c "hr-audio"] ++
            (s.hrObservers.filter (fun ob => ob.socketId != socketId)).map
              (fun ob => Effect.emit ob.socketId "hr-audio"))
        else (st, [])

/-- Per-session part of `WebSocketService.handleDisconnect`: clear the
candidate reference when this socket was the candidate, and remove the
first observer bound to this socket (`findIndex` + `splice(i, 1)`).
The associated database updates touch no session state. -/
def disconnectSession (socketId : String) (s : WSSession) : WSSession :=
  let s :=
    if s.candidateSocketId == some socketId then
      { s with candidateSocketId := none }
    else s
  { s with hrObservers := s.hrObservers.eraseP (fun o => o.socketId == socketId) }

/-- `WebSocketService.handleDisconnect(socket)`: the loop over
`this.sessions.entries()`. -/
def handleDisconnect (st : Sessions) (socketId : String) : Sessions :=
  st.map (fun p => (p.1, disconnectSession socketId p.2))

/-- External inputs of `handleCandidateJoin`: the interview row status
from the database (`none` = no row), the first question produced by
`startInterview` for a fresh session, and the clock. -/
structure JoinArgs where
  interviewId : String
  candidateId : String
  socketId : String
  dbStatus : Option String
  firstQuestion : Option String
  now : Nat
deriving Repr, DecidableEq

/-- `WebSocketService.handleCandidateJoin(socket, data)`: reject when
the interview row is missing or completed; rebind the socket on an
existing session; otherwise create the session object, mark the row
in progress and run `startInterview` (first AI question appended and
emitted). -/
def handleCandidateJoin (st : Sessions) (a : JoinArgs) : Sessions × List Effect :=
  match a.dbStatus with
  | none => (st, [.emit a.socketId "error"])
  | some dbStatus =>
    if dbStatus == "completed" then (st, [.emit a.socketId "error"])
    else
      match mget st a.interviewId with
      | some s =>
        let s2 := { s with candidateSocketId := some a.socketId }
        (mset st a.interviewId s2,
          [.emit a.socketId "interview-joined"] ++
            notifyHRObservers s2 "candidate-joined")
      | none =>
        let base : WSSession := {
          interviewId := a.interviewId
          candidateId := a.candidateId
          candidateSocketId := some a.socketId
          status := "active"
          orchestrator := orchInit
          transcript := []
          currentQuestion := none
          questionCount := 0
          hrObservers := []
          hrPresent := false
          isPaused := false
          startedAt := a.now }
        let r :=
          match a.firstQuestion with
          | some q =>
            ({ base with
                currentQuestion := some q
                questionCount := 1
                transcript := [{ speaker := "AI", text := q, timestamp := a.now }] },
              [Effect.emit a.socketId "ai-question"])
          | none => (base, [])
        (mset st a.interviewId r.1,
          [Effect.dbWrite "interviews.status-in-progress"] ++ r.2 ++
            [.emit a.socketId "interview-joined"] ++
            notifyHRObservers r.1 "candidate-joined")

/-- External inputs of `handleCandidateAudio`: the speech-to-text
result and the next question the websocket build's orchestrator
returns (`none` means the interview is complete). -/
structure AudioArgs where
  interviewId : String
  transcription : String
  nextQuestion : Option String
  ts : Nat
deriving Repr, DecidableEq

/-- `WebSocketService.handleCandidateAudio(socket, data)`: drop when
the session is missing or paused, ignore empty transcriptions, append
the candidate turn, then either append and emit the next AI question
or end the interview. -/
def handleCandidateAudio (st : Sessions) (a : AudioArgs) : Sessions × List Effect :=
  match mget st a.interviewId with
  | none => (st, [])
  | some s =>
    if s.isPaused then (st, [])
    else if a.transcription.trim == "" then (st, [])
    else
      let s := { s with transcript := s.transcript ++
        [{ speaker := "Candidate", text := a.transcription, timestamp := a.ts }] }
      let e1 := emitToCandidate s "transcription"
      match a.nextQuestion with
      | some q =>
        let s := { s with
          currentQuestion := some q
          questionCount := s.questionCount + 1
          transcript := s.transcript ++ [{ speaker := "AI", text := q, timestamp := a.ts }] }
        (mset st a.interviewId s,
          e1 ++ emitToCandidate s "ai-question" ++
            notifyHRObservers s "transcript-update")
      | none =>
        let r := endInterview s
        (mset st a.interviewId r.1,
          e1 ++ r.2 ++ notifyHRObservers r.1 "transcript-update")

/-- Number of finalization invocations (report generation plus final
persistence) in an effect list. -/
def countFinalize : List Effect → Nat
  | [] => 0
  | Effect.finalize :: t => countFinalize t + 1
  | Effect.emit _ _ :: t => countFinalize t
  | Effect.dbWrite _ :: t => countFinalize t

/-- Number of emissions of `event` to socket `sock` in an effect
list. -/
def countEmit (sock event : String) : List Effect → Nat
  | [] => 0
  | Effect.emit s e :: t =>
      (if s == sock && e == event then 1 else 0) + countEmit sock event t
  | Effect.finalize :: t => countEmit sock event t
  | Effect.dbWrite _ :: t => countEmit sock event t

theorem countFinalize_append (l₁ l₂ : List Effect) :
    countFinalize (l₁ ++ l₂) = countFinalize l₁ + countFinalize l₂ := by
  induction l₁ with
  | nil => simp [countFinalize]
  | cons h t ih =>
    cases h with
    | finalize => simp [countFinalize, ih]; omega
    | emit s e => simp [countFinalize, ih]
    | dbWrite s => simp [countFinalize, ih]

theorem countEmit_append (sock event : String) (l₁ l₂ : List Effect) :
    countEmit sock event (l₁ ++ l₂) =
      countEmit sock event l₁ + countEmit sock event l₂ := by
  induction l₁ with
  | nil => simp [countEmit]
  | cons h t ih =>
    cases h with
    | finalize => simp [countEmit, ih]
    | emit s e => simp [countEmit, ih]; omega
    | dbWrite s => simp [countEmit, ih]

theorem countFinalize_notify (s : WSSession) (event : String) :
    countFinalize (notifyHRObservers s event) = 0 := by
  unfold notifyHRObservers
  induction s.hrObservers with
  | nil => simp [countFinalize]
  | cons h t ih => simpa [countFinalize] using ih

theorem countFinalize_emitToCandidate (s : WSSession) (event : String) :
    countFinalize (emitToCandidate s event) = 0 := by
  unfold emitToCandidate
  cases s.candidateSocketId <;> simp [countFinalize]

theorem mget_mset_self (st : Sessions) (k : String) (v : WSSession) :
    mget (mset st k v) k = some v := by
  induction st with
  | nil => simp [mget, mset]
  | cons h t ih =>
    by_cases hk : h.1 == k
    · simp [mget, mset, hk]
    · simp [mget, mset, hk, ih]

theorem mset_mset (st : Sessions) (k : String) (v w : WSSession) :
    mset (mset st k v) k w = mset st k w := by
  induction st with
  | nil => simp [mset]
  | cons h t ih =>
    by_cases hk : h.1 == k
    · simp [mset, hk]
    · simp [mset, hk, ih]

theorem keys_mset (st : Sessions) (k : String) (v w : WSSession)
    (h : mget st k = some w) :
    (mset st k v).map Prod.fst = st.map Prod.fst := by
  induction st with
  | nil => simp [mget] at h
  | cons hd t ih =>
    by_cases hk : hd.1 == k
    · simp [mset, hk]
    · simp [mget, hk] at h
      simp [mset, hk, ih h]

theorem mget_mapValues (st : Sessions) (f : WSSession → WSSession) (k : String) :
    mget (st.map (fun p => (p.1, f p.2))) k = (mget st k).map f := by
  induction st with
  | nil => simp [mget]
  | cons h t ih =>
    by_cases hk : h.1 == k
    · simp [mget, hk]
    · simp [mget, hk, ih]

theorem find?_map_revealUpd (l : List Observer) (sid : String) (o : Observer)
    (h : l.find? (fun x => x.socketId == sid) = some o) :
    (l.map (revealUpd sid)).find? (fun x => x.socketId == sid) =
      some { o with visible := true } := by
  induction l with
  | nil => simp [List.find?] at h
  | cons hd t ih =>
    simp only [List.map_cons]
    by_cases hk : (hd.socketId == sid) = true
    · rw [@List.find?_cons_of_pos Observer (fun x => x.socketId == sid) hd t hk] at h
      obtain rfl : hd = o := by simpa using h
      rw [@List.find?_cons_of_pos Observer (fun x => x.socketId == sid)
        (revealUpd sid hd) (t.map (revealUpd sid)) (by simp [revealUpd, hk])]
      simp [revealUpd, hk]
    · rw [@List.find?_cons_of_neg Observer (fun x => x.socketId == sid) hd t
        (by simpa using hk)] at h
      rw [@List.find?_cons_of_neg Observer (fun x => x.socketId == sid)
        (revealUpd sid hd) (t.map (revealUpd sid)) (by simp [revealUpd, hk])]
      exact ih h

theorem revealUpd_idem (sid : String) (o : Observer) :
    revealUpd sid (revealUpd sid o) = revealUpd sid o := by
  by_cases h : o.socketId == sid <;> simp [revealUpd, h]

theorem map_revealUpd_idem (l : List Observer) (sid : String) :
    (l.map (revealUpd sid)).map (revealUpd sid) = l.map (revealUpd sid) := by
  rw [List.map_map]
  exact List.map_congr_left (fun o _ => revealUpd_idem sid o)

/-! Concrete fixtures used by witnesses and counterexamples. -/

/-- A hidden observer with audio enabled, as after `hr-join` followed
by `hr-audio-toggle{enabled: true}`. -/
def obsA : Observer :=
  { socketId := "hr-sock-1", userId := "hr-1", name := "Dana", email := "d@x"
    visible := false, audio := true, video := false, joinedAt := 0 }

/-- An active session with a connected candidate and one hidden
observer. -/
def sessA : WSSession :=
  { interviewId := "int-1", candidateId := "cand-1"
    candidateSocketId := some "cand-sock", status := "active"
    orchestrator := orchInit, transcript := [], currentQuestion := none
    questionCount := 0, hrObservers := [obsA], hrPresent := false
    isPaused := false, startedAt := 0 }

/-- Registry holding `sessA`. -/
def regA : Sessions := [("int-1", sessA)]

/-- `sessA` after its interview has already been completed. -/
def sessDone : WSSession := { sessA with status := "completed" }

/-- Registry holding the completed session. -/
def regDone : Sessions := [("int-1", sessDone)]

/-- A `processResponse` input with a 12-word answer that matches no
stress indicator. -/
def c3args : PArgs :=
  { candidateResponse := "this answer is long enough to trigger no stress indicators at all"
    stressFail := false
    signalNormal := { quality := "good", note := "" }
    signalFail := false
    coin := false
    nextQ := "Q", reassure := "R", closing := "C", ts := 0 }

/-! C10 -/

/-- C10: on its normal (non-exception) path the stress quick check
returns a level of low or medium — medium exactly when at least two
textual indicators match — and never high; hence the
reassurance-substitution guard of `processResponse`, which requires
the quick-check level to equal high, never fires on a
quick-check-produced level. -/
theorem quickStressCheck_never_high (r : String) (coin : Bool) :
    ((quickStressCheck r false).stress_level = "low" ∨
      (quickStressCheck r false).stress_level = "medium") ∧
    ((quickStressCheck r false).stress_level = "medium" ↔
      2 ≤ (quickIndicators r).length) ∧
    chooseReassurance (quickStressCheck r false).stress_level coin = false := by
  unfold quickStressCheck chooseReassurance
  by_cases h : 2 ≤ (quickIndicators r).length
  · simp [h]
  · simp [h]

/-! C4 -/

/-- C4: whenever the transcript holds at least 20 candidate turns, the
end-of-interview decision returns true in every phase 0..4 (states
with `live_state.phase_index` in sync with `currentPhaseIndex`, which
`loadContext`/`updatePhaseIndex` maintain at every call site).  In the
terminal reflection phase the filter predicate degenerates to counting
all candidate turns, which is also at least 2. -/
theorem safety_cap_ends_regardless_of_phase (s : OrchState)
    (hsync : s.live.phase_index = s.currentPhaseIndex)
    (h4 : s.currentPhaseIndex ≤ 4)
    (h20 : 20 ≤ (s.transcript.filter (fun m => m.speaker == "candidate")).length) :
    shouldEndInterview s = true := by
  unfold shouldEndInterview
  by_cases h : phases.length - 1 ≤ s.currentPhaseIndex
  · rw [if_pos h]
    have h5 : phases.length - 1 = 4 := rfl
    have hcur : s.currentPhaseIndex = 4 := le_antisymm h4 (by omega)
    have hlive : s.live.phase_index = 4 := by rw [hsync, hcur]
    rw [hlive]
    have hpred : (fun (m : Message) => m.speaker == "candidate" &&
        (phases.getD 4 "" == "reflection")) = fun m => m.speaker == "candidate" := by
      funext m
      have hb : (phases.getD 4 "" == "reflection") = true := by decide
      rw [hb, Bool.and_true]
    rw [hpred]
    simp only [decide_eq_true_eq]
    omega
  · rw [if_neg h]
    simp only [decide_eq_true_eq]
    exact h20

/-- A phase-4 session whose transcript already holds 20 candidate
turns. -/
def c4state : OrchState :=
  { currentPhaseIndex := 4
    transcript := List.replicate 20 { speaker := "candidate", text := "x", timestamp := 0 }
    live := { stress_level := "low", last_signal_check := "", phase_index := 4 } }

/-- C4 witness: the safety cap fires on a concrete reflection-phase
state with 20 candidate turns. -/
theorem safety_cap_ends_regardless_of_phase_witness :
    (c4state.live.phase_index = c4state.currentPhaseIndex ∧
     c4state.currentPhaseIndex ≤ 4 ∧
     20 ≤ (c4state.transcript.filter (fun m => m.speaker == "candidate")).length) ∧
    shouldEndInterview c4state = true :=
  ⟨⟨rfl, by decide, by decide⟩,
    safety_cap_ends_regardless_of_phase c4state rfl (by decide) (by decide)⟩

/-! C3 -/

/-- C3 (failing input): starting from a fresh orchestrator, three
candidate turns move the phase index to 1, but the very next candidate
turn — the first one spoken in phase 1 — already moves it to 2,
because `shouldAdvancePhase`'s filter condition never inspects the
message it filters and therefore counts every candidate turn in the
whole transcript. -/
theorem phase_advances_on_every_turn_after_warmup :
    (runEvents orchInit [c3args, c3args, c3args]).currentPhaseIndex = 1 ∧
    (runEvents orchInit [c3args, c3args, c3args, c3args]).currentPhaseIndex = 2 := by
  constructor
  · rfl
  · rfl

/-! C5 -/

/-- One `processResponse` step from a state whose `live_state` phase
index is in sync and in range keeps it in sync, never decreases the
phase index, keeps it at most 4, and from phase 4 leaves it exactly at
4 (the `Math.min` clamp). -/
theorem stepPhase_sync_mono (s : OrchState) (a : PArgs)
    (hsync : s.live.phase_index = s.currentPhaseIndex)
    (h4 : s.currentPhaseIndex ≤ 4) :
    (stepPhase s a).live.phase_index = (stepPhase s a).currentPhaseIndex ∧
    s.currentPhaseIndex ≤ (stepPhase s a).currentPhaseIndex ∧
    (stepPhase s a).currentPhaseIndex ≤ 4 ∧
    (s.currentPhaseIndex = 4 → (stepPhase s a).currentPhaseIndex = 4) := by
  unfold stepPhase processResponse orchEndInterview loadContext addToTranscript
  dsimp only
  split
  all_goals split
  all_goals dsimp only
  all_goals simp only [phases, List.length_cons, List.length_nil]
  all_goals refine ⟨?_, ?_, ?_, fun hh => ?_⟩
  all_goals try trivial
  all_goals omega

/-- Monotonicity of the phase index along any sequence of processed
responses. -/
theorem runEvents_sync_mono (l : List PArgs) (s : OrchState)
    (hsync : s.live.phase_index = s.currentPhaseIndex)
    (h4 : s.currentPhaseIndex ≤ 4) :
    (runEvents s l).live.phase_index = (runEvents s l).currentPhaseIndex ∧
    s.currentPhaseIndex ≤ (runEvents s l).currentPhaseIndex ∧
    (runEvents s l).currentPhaseIndex ≤ 4 := by
  induction l generalizing s with
  | nil => exact ⟨hsync, Nat.le_refl _, h4⟩
  | cons a t ih =>
    have hs := stepPhase_sync_mono s a hsync h4
    have ht := ih (stepPhase s a) hs.1 hs.2.2.1
    exact ⟨ht.1, Nat.le_trans hs.2.1 ht.2.1, ht.2.2⟩

/-- C5: over any sequence of processed events the phase index never
regresses and stays within 0..4, and an advance decision taken at the
last phase (index 4) leaves the index at 4 — a no-op, clamped by
`Math.min(currentPhaseIndex + 1, phases.length - 1)`. -/
theorem phase_index_monotone_and_clamped (s : OrchState) (a : PArgs) (l : List PArgs)
    (hsync : s.live.phase_index = s.currentPhaseIndex)
    (h4 : s.currentPhaseIndex ≤ 4) :
    s.currentPhaseIndex ≤ (runEvents s l).currentPhaseIndex ∧
    (runEvents s l).currentPhaseIndex ≤ 4 ∧
    (s.currentPhaseIndex = 4 → (stepPhase s a).currentPhaseIndex = 4) := by
  have hr := runEvents_sync_mono l s hsync h4
  have hs := stepPhase_sync_mono s a hsync h4
  exact ⟨hr.2.1, hr.2.2, hs.2.2.2⟩

/-- C5 witness: a concrete phase-4 state run through one event keeps
the index at 4. -/
theorem phase_index_monotone_and_clamped_witness :
    (c4state.live.phase_index = c4state.currentPhaseIndex ∧
     c4state.currentPhaseIndex ≤ 4) ∧
    (c4state.currentPhaseIndex ≤ (runEvents c4state [c3args]).currentPhaseIndex ∧
     (runEvents c4state [c3args]).currentPhaseIndex ≤ 4 ∧
     (c4state.currentPhaseIndex = 4 → (stepPhase c4state c3args).currentPhaseIndex = 4)) :=
  ⟨⟨rfl, by decide⟩,
    phase_index_monotone_and_clamped c4state c3args [c3args] rfl (by decide)⟩

/-! C1 -/

/-- C1 (counterexample): the session is already completed, yet the HR
end command invokes finalization once more — `handleHREndInterview`
and `endInterview` never consult `session.status`, so the claimed
no-op (zero further finalize calls) does not hold. -/
theorem hr_end_on_completed_finalizes_again :
    (mget regDone "int-1").map WSSession.status = some "completed" ∧
    countFinalize (handleHREndInterview regDone "int-1").2 = 1 ∧
    (1 : Nat) ≠ 0 := by decide

/-- C1 (amended): every HR end command on a registered session —
whatever its status, including already-completed — runs finalization
exactly once more and (re)sets the status to completed; exactly-once
termination therefore holds only when a single end trigger ever
reaches `endInterview`. -/
theorem hr_end_always_finalizes_once (st : Sessions) (iid : String) (s : WSSession)
    (h : mget st iid = some s) :
    countFinalize (handleHREndInterview st iid).2 = 1 ∧
    (mget (handleHREndInterview st iid).1 iid).map WSSession.status = some "completed" := by
  unfold handleHREndInterview
  rw [h]
  dsimp only
  constructor
  · simp [endInterview, countFinalize_append, countFinalize,
      countFinalize_notify, countFinalize_emitToCandidate]
  · rw [mget_mset_self]
    simp [endInterview]

/-- C1 witness for the amended theorem, on the active fixture
session. -/
theorem hr_end_always_finalizes_once_witness :
    mget regA "int-1" = some sessA ∧
    (countFinalize (handleHREndInterview regA "int-1").2 = 1 ∧
     (mget (handleHREndInterview regA "int-1").1 "int-1").map WSSession.status =
       some "completed") :=
  ⟨by decide, hr_end_always_finalizes_once regA "int-1" sessA (by decide)⟩

/-! C2 -/

/-- The session state `handleHRReveal` stores on success: the found
observer made visible, `hrPresent` set. -/
def revealedSession (s : WSSession) (sid : String) : WSSession :=
  { s with hrObservers := s.hrObservers.map (revealUpd sid), hrPresent := true }

/-- Reduction of `handleHRReveal` on the success path: session found
and the calling socket is a registered observer. -/
theorem handleHRReveal_found (st : Sessions) (iid sid : String) (s : WSSession)
    (o : Observer)
    (hs : mget st iid = some s)
    (ho : s.hrObservers.find? (fun x => x.socketId == sid) = some o) :
    handleHRReveal st iid sid =
      (mset st iid (revealedSession s sid),
        [Effect.dbWrite "interview_observers.was_visible"] ++
          emitToCandidate s "participant-joined" ++ [.emit sid "reveal-success"]) := by
  unfold handleHRReveal revealedSession
  rw [hs]
  dsimp only
  rw [ho]

/-- C2 (counterexample): two reveal calls by the same observer produce
two `participant-joined` broadcasts to the candidate, not exactly
one. -/
theorem double_reveal_two_broadcasts :
    countEmit "cand-sock" "participant-joined"
      ((handleHRReveal regA "int-1" "hr-sock-1").2 ++
        (handleHRReveal (handleHRReveal regA "int-1" "hr-sock-1").1
          "int-1" "hr-sock-1").2) = 2 ∧
    (2 : Nat) ≠ 1 := by decide

/-- C2 (amended): reveal is idempotent on session state — a repeat
call leaves the registry exactly as after the first call — but the
`participant-joined` broadcast is re-emitted on every successful call
(one per call, so n calls produce n broadcasts, not one). -/
theorem reveal_one_broadcast_per_call (st : Sessions) (iid sid c : String)
    (s : WSSession) (o : Observer)
    (hs : mget st iid = some s)
    (ho : s.hrObservers.find? (fun x => x.socketId == sid) = some o)
    (hc : s.candidateSocketId = some c) :
    countEmit c "participant-joined" (handleHRReveal st iid sid).2 = 1 ∧
    countEmit c "participant-joined"
      (handleHRReveal (handleHRReveal st iid sid).1 iid sid).2 = 1 ∧
    (handleHRReveal (handleHRReveal st iid sid).1 iid sid).1 =
      (handleHRReveal st iid sid).1 := by
  have h1 := handleHRReveal_found st iid sid s o hs ho
  have hs2 : mget (handleHRReveal st iid sid).1 iid = some (revealedSession s sid) := by
    rw [h1]
    exact mget_mset_self st iid _
  have ho2 : (revealedSession s sid).hrObservers.find?
      (fun x => x.socketId == sid) = some { o with visible := true } :=
    find?_map_revealUpd s.hrObservers sid o ho
  have h2 := handleHRReveal_found (handleHRReveal st iid sid).1 iid sid _ _ hs2 ho2
  refine ⟨?_, ?_, ?_⟩
  · rw [h1]
    simp [countEmit, emitToCandidate, hc]
  · rw [h2]
    simp [countEmit, emitToCandidate, revealedSession, hc]
  · rw [h2, h1]
    dsimp only
    rw [mset_mset]
    unfold revealedSession
    dsimp only
    rw [map_revealUpd_idem]

/-- C2 witness for the amended theorem: one hidden observer, candidate
connected. -/
theorem reveal_one_broadcast_per_call_witness :
    (mget regA "int-1" = some sessA ∧
     sessA.hrObservers.find? (fun x => x.socketId == "hr-sock-1") = some obsA ∧
     sessA.candidateSocketId = some "cand-sock") ∧
    (countEmit "cand-sock" "participant-joined"
        (handleHRReveal regA "int-1" "hr-sock-1").2 = 1 ∧
     countEmit "cand-sock" "participant-joined"
        (handleHRReveal (handleHRReveal regA "int-1" "hr-sock-1").1
          "int-1" "hr-sock-1").2 = 1 ∧
     (handleHRReveal (handleHRReveal regA "int-1" "hr-sock-1").1
        "int-1" "hr-sock-1").1 = (handleHRReveal regA "int-1" "hr-sock-1").1) :=
  ⟨⟨by decide, by decide, by decide⟩,
    reveal_one_broadcast_per_call regA "int-1" "hr-sock-1" "cand-sock" sessA obsA
      (by decide) (by decide) (by decide)⟩

/-! C7 -/

/-- C7: an `hr-audio` event from a hidden observer produces no effect
at all (in particular no event to the candidate), whatever its
`audio` flag; after a successful reveal, the same observer with audio
enabled and the candidate connected does get its audio forwarded to
the candidate. -/
theorem hr_audio_gated_on_visibility (st : Sessions) (iid sid c : String)
    (s : WSSession) (o : Observer)
    (hs : mget st iid = some s)
    (ho : s.hrObservers.find? (fun x => x.socketId == sid) = some o) :
    (o.visible = false → (handleHRAudio st iid sid).2 = []) ∧
    (s.candidateSocketId = some c → o.audio = true →
      Effect.emit c "hr-audio" ∈ (handleHRAudio (handleHRReveal st iid sid).1 iid sid).2) := by
  constructor
  · intro hv
    unfold handleHRAudio
    rw [hs]
    dsimp only
    rw [ho]
    dsimp only
    cases s.candidateSocketId with
    | none => rfl
    | some c' => simp [hv]
  · intro hc ha
    have h1 := handleHRReveal_found st iid sid s o hs ho
    have hs2 : mget (handleHRReveal st iid sid).1 iid = some (revealedSession s sid) := by
      rw [h1]
      exact mget_mset_self st iid _
    have ho2 : (revealedSession s sid).hrObservers.find?
        (fun x => x.socketId == sid) = some { o with visible := true } :=
      find?_map_revealUpd s.hrObservers sid o ho
    unfold handleHRAudio
    rw [hs2]
    dsimp only
    rw [ho2]
    dsimp only
    have hc2 : (revealedSession s sid).candidateSocketId = some c := hc
    rw [hc2]
    simp [ha]

/-- C7 witness: the hidden fixture observer is silenced; after reveal
its audio reaches the candidate socket. -/
theorem hr_audio_gated_on_visibility_witness :
    (mget regA "int-1" = some sessA ∧
     sessA.hrObservers.find? (fun x => x.socketId == "hr-sock-1") = some obsA) ∧
    ((obsA.visible = false → (handleHRAudio regA "int-1" "hr-sock-1").2 = []) ∧
     (sessA.candidateSocketId = some "cand-sock" → obsA.audio = true →
      Effect.emit "cand-sock" "hr-audio" ∈
        (handleHRAudio (handleHRReveal regA "int-1" "hr-sock-1").1
          "int-1" "hr-sock-1").2)) :=
  ⟨⟨by decide, by decide⟩,
    hr_audio_gated_on_visibility regA "int-1" "hr-sock-1" "cand-sock" sessA obsA
      (by decide) (by decide)⟩

/-! C6 -/

/-- Fallback message used with `List.getD`. -/
def msgDefault : Message := { speaker := "", text := "", timestamp := 0 }

/-- C6 (counterexample): the very first appended turn does not carry a
`sequenceNumber` equal to its position 0 — the message object is built
with `speaker`, `text`, `timestamp` only, so reading `sequenceNumber`
yields `undefined` (`none`). -/
theorem turn_zero_has_no_sequence_number :
    ((addToTranscript orchInit "candidate" "hello" 0).transcript.getD 0
      msgDefault).sequenceNumber ≠ some 0 := by decide

/-- C6 (amended): the transcript is append-only — each
`addToTranscript` appends one message at the end, leaves every
existing position unchanged, and grows the length by one, so position
indices totally order all turns across speakers — but the appended
message carries no `sequenceNumber` field (reading it yields
`undefined`/`none`), so `transcript[i].sequenceNumber == i` fails. -/
theorem addToTranscript_append_only (s : OrchState) (sp txt : String) (ts : Nat)
    (i : Nat) (d : Message) (hi : i < s.transcript.length) :
    (addToTranscript s sp txt ts).transcript =
      s.transcript ++ [{ speaker := sp, text := txt, timestamp := ts }] ∧
    (addToTranscript s sp txt ts).transcript.getD i d = s.transcript.getD i d ∧
    (addToTranscript s sp txt ts).transcript.length = s.transcript.length + 1 ∧
    ({ speaker := sp, text := txt, timestamp := ts : Message }).sequenceNumber = none := by
  refine ⟨rfl, ?_, by simp [addToTranscript], rfl⟩
  unfold addToTranscript
  dsimp only
  exact List.getD_append _ _ _ _ hi

/-- One-message orchestrator state for the C6 witness. -/
def c6state : OrchState := addToTranscript orchInit "ai" "hello there" 0

/-- C6 witness for the amended theorem at position 0 of a one-message
transcript. -/
theorem addToTranscript_append_only_witness :
    (0 < c6state.transcript.length) ∧
    ((addToTranscript c6state "candidate" "fine" 1).transcript =
      c6state.transcript ++ [{ speaker := "candidate", text := "fine", timestamp := 1 }] ∧
    (addToTranscript c6state "candidate" "fine" 1).transcript.getD 0 msgDefault =
      c6state.transcript.getD 0 msgDefault ∧
    (addToTranscript c6state "candidate" "fine" 1).transcript.length =
      c6state.transcript.length + 1 ∧
    ({ speaker := "candidate", text := "fine", timestamp := 1 : Message }).sequenceNumber =
      none) :=
  ⟨by decide, addToTranscript_append_only c6state "candidate" "fine" 1 0 msgDefault (by decide)⟩

/-! C8 -/

/-- Turn input whose stress quick-check takes the catch path. -/
def c8args : PArgs :=
  { candidateResponse := "hello"
    stressFail := true
    signalNormal := { quality := "good", note := "" }
    signalFail := true
    coin := true
    nextQ := "Q", reassure := "R", closing := "C", ts := 3 }

/-- C8 (counterexample): the session's previous stress level is low
and the stress quick-check fails; the stress level recorded by
`updateLiveState` is the catch fallback value unknown — not the
previous level, contrary to the claimed fallback. -/
theorem stress_fail_records_unknown :
    orchInit.live.stress_level = "low" ∧
    (processResponse orchInit c8args).1.live.stress_level = "unknown" ∧
    (processResponse orchInit c8args).1.live.stress_level ≠
      orchInit.live.stress_level := by decide

/-- C8 (amended): quick-check failures are advisory — with the stress
check failing (and the signal check failing or not), `processResponse`
still appends the candidate turn and still produces exactly one AI
utterance (next question or closing message); but the recorded stress
level becomes the catch fallback "unknown", not the previous stress
level. -/
theorem quick_check_failures_advisory (s : OrchState) (a : PArgs)
    (hf : a.stressFail = true) :
    (∃ m, (processResponse s a).1.transcript = s.transcript ++
      [{ speaker := "candidate", text := a.candidateResponse, timestamp := a.ts },
       { speaker := "ai", text := m, timestamp := a.ts }]) ∧
    (processResponse s a).1.live.stress_level = "unknown" := by
  have hq : quickStressCheck a.candidateResponse a.stressFail =
      { stress_level := "unknown", indicators := [], recommendation := "continue" } := by
    rw [hf]
    rfl
  have hcr : chooseReassurance "unknown" a.coin = false := by
    simp [chooseReassurance]
  unfold processResponse orchEndInterview loadContext addToTranscript
  rw [hq]
  dsimp only
  rw [hcr]
  split
  · split
    · exact ⟨⟨a.closing, by simp⟩, rfl⟩
    · exact ⟨⟨a.nextQ, by simp⟩, rfl⟩
  · split
    · exact ⟨⟨a.closing, by simp⟩, rfl⟩
    · exact ⟨⟨a.nextQ, by simp⟩, rfl⟩

/-- C8 witness for the amended theorem, on the fixture failing
input. -/
theorem quick_check_failures_advisory_witness :
    c8args.stressFail = true ∧
    ((∃ m, (processResponse orchInit c8args).1.transcript = orchInit.transcript ++
      [{ speaker := "candidate", text := c8args.candidateResponse, timestamp := c8args.ts },
       { speaker := "ai", text := m, timestamp := c8args.ts }]) ∧
    (processResponse orchInit c8args).1.live.stress_level = "unknown") :=
  ⟨rfl, quick_check_failures_advisory orchInit c8args rfl⟩

/-! C9 -/

/-- C9: a candidate disconnect clears only the connection reference —
the session stays registered with transcript, pause flag, observers
and orchestrator (phase index) untouched — and a later join with the
same interview id rebinds the new socket onto the very same session
without creating a duplicate registry entry. -/
theorem disconnect_rejoin_preserves_session (st : Sessions) (iid sid : String)
    (s : WSSession) (a : JoinArgs) (dbs : String)
    (hs : mget st iid = some s)
    (hcand : s.candidateSocketId = some sid)
    (hobs : ∀ o ∈ s.hrObservers, o.socketId ≠ sid)
    (hiid : a.interviewId = iid)
    (hdb : a.dbStatus = some dbs)
    (hne : (dbs == "completed") = false) :
    mget (handleDisconnect st sid) iid = some { s with candidateSocketId := none } ∧
    (handleDisconnect st sid).map Prod.fst = st.map Prod.fst ∧
    mget (handleCandidateJoin (handleDisconnect st sid) a).1 iid =
      some { s with candidateSocketId := some a.socketId } ∧
    ((handleCandidateJoin (handleDisconnect st sid) a).1).map Prod.fst =
      st.map Prod.fst := by
  have hd1 : mget (handleDisconnect st sid) iid =
      some { s with candidateSocketId := none } := by
    unfold handleDisconnect
    rw [mget_mapValues, hs]
    unfold disconnectSession
    dsimp only [Option.map]
    have hb : (s.candidateSocketId == some sid) = true := by
      rw [hcand]
      simp
    rw [if_pos hb]
    dsimp only
    rw [List.eraseP_of_forall_not]
    intro o ho
    simpa using hobs o ho
  have hkeys1 : (handleDisconnect st sid).map Prod.fst = st.map Prod.fst := by
    unfold handleDisconnect
    rw [List.map_map]
    rfl
  have hj1 : (handleCandidateJoin (handleDisconnect st sid) a).1 =
      mset (handleDisconnect st sid) iid { s with candidateSocketId := some a.socketId } := by
    unfold handleCandidateJoin
    rw [hdb]
    dsimp only
    rw [if_neg (by simp [hne])]
    rw [hiid, hd1]
  refine ⟨hd1, hkeys1, ?_, ?_⟩
  · rw [hj1, mget_mset_self]
  · rw [hj1, keys_mset _ _ _ _ hd1]
    exact hkeys1

/-- Join event used by the C9 witness (same interview id, new
socket). -/
def rejoinArgs : JoinArgs :=
  { interviewId := "int-1", candidateId := "cand-1", socketId := "cand-sock-2"
    dbStatus := some "in_progress", firstQuestion := none, now := 7 }

/-- C9 witness: the fixture candidate disconnects and rejoins on a new
socket. -/
theorem disconnect_rejoin_preserves_session_witness :
    (mget regA "int-1" = some sessA ∧
     sessA.candidateSocketId = some "cand-sock" ∧
     (∀ o ∈ sessA.hrObservers, o.socketId ≠ "cand-sock") ∧
     rejoinArgs.interviewId = "int-1" ∧
     rejoinArgs.dbStatus = some "in_progress" ∧
     (("in_progress" : String) == "completed") = false) ∧
    (mget (handleDisconnect regA "cand-sock") "int-1" =
      some { sessA with candidateSocketId := none } ∧
    (handleDisconnect regA "cand-sock").map Prod.fst = regA.map Prod.fst ∧
    mget (handleCandidateJoin (handleDisconnect regA "cand-sock") rejoinArgs).1 "int-1" =
      some { sessA with candidateSocketId := some rejoinArgs.socketId } ∧
    ((handleCandidateJoin (handleDisconnect regA "cand-sock") rejoinArgs).1).map Prod.fst =
      regA.map Prod.fst) :=
  ⟨⟨by decide, by decide, by decide, rfl, rfl, by decide⟩,
    disconnect_rejoin_preserves_session regA "int-1" "cand-sock" sessA rejoinArgs
      "in_progress" (by decide) (by decide) (by decide) rfl rfl (by decide)⟩

end InterviewSaas
